import Mathlib

/-!
Shallow embedding of the payments ledger engine (`src/engine.rs`,
`src/lib.rs`, `src/errors.rs`) and proofs about its per-event transition
function `Engine::handle`, its snapshot operations `account_info` and
`all_accounts`, and the dispute lifecycle.

Modelling choices:
* `rust_decimal::Decimal` amounts are modelled as `Rat` (exact arithmetic;
  every operation the engine uses — addition, subtraction, negation,
  comparison — agrees with the rational semantics of `Decimal`).
* `HashMap` is modelled as an association list with unique keys, with
  `lookup` for `get` and `upsert` for `insert` (replace the binding if the
  key is present, append otherwise).  `entry(k).or_default()` is modelled by
  `ensureEntry` (insert the default value when the key is absent) followed,
  on paths that write through the entry, by `upsert`.
* `handle(&mut self, …) -> Result<()>` mutates `self` in place even when it
  returns `Err`, so it is modelled as
  `Engine → Transaction → Engine × Option ErrorType`:
  the returned engine is the state after the call, and `none` means `Ok(())`.
-/

set_option allowUnsafeReducibility true in
attribute [semireducible] Rat.add Rat.sub Rat.neg Rat.mul

namespace Ledger

abbrev ClientId := Nat

abbrev TransactionId := Nat

/-- Association-list lookup, modelling `HashMap::get`. -/
def lookup {V : Type} (k : Nat) : List (Nat × V) → Option V
  | [] => none
  | (k', v) :: rest => if k' = k then some v else lookup k rest

/-- Association-list insert-or-replace, modelling `HashMap::insert`
(the binding for an existing key is replaced in place). -/
def upsert {V : Type} (k : Nat) (v : V) : List (Nat × V) → List (Nat × V)
  | [] => [(k, v)]
  | (k', v') :: rest => if k' = k then (k, v) :: rest else (k', v') :: upsert k v rest

/-- Modelling the insertion effect of `HashMap::entry(k).or_default()`:
if `k` is absent a default binding is created, otherwise nothing changes. -/
def ensureEntry {V : Type} (k : Nat) (d : V) (l : List (Nat × V)) : List (Nat × V) :=
  match lookup k l with
  | some _ => l
  | none => upsert k d l

/-- `enum Status` from `src/engine.rs`. -/
inductive Status where
  | None
  | UnderDispute
  | Reversed
deriving DecidableEq

/-- `struct TransactionInfo` from `src/engine.rs`. -/
structure TransactionInfo where
  client : ClientId
  amount : Rat
  status : Status
deriving DecidableEq

/-- `TransactionInfo::new` from `src/engine.rs`. -/
def TransactionInfo.new (client : ClientId) (amount : Rat) : TransactionInfo :=
  { client := client, amount := amount, status := Status.None }

/-- `struct ClientState` from `src/engine.rs` (`#[derive(Default)]`). -/
structure ClientState where
  available : Rat
  held : Rat
  locked : Bool
deriving DecidableEq

/-- `ClientState::default()`. -/
def ClientState.default : ClientState :=
  { available := 0, held := 0, locked := false }

/-- `enum Event` from `src/lib.rs`. -/
inductive Event where
  | Deposit (tx : TransactionId) (amount : Rat)
  | Withdrawal (tx : TransactionId) (amount : Rat)
  | Dispute (tx : TransactionId)
  | Resolve (tx : TransactionId)
  | Chargeback (tx : TransactionId)
deriving DecidableEq

/-- `struct Transaction` from `src/lib.rs`. -/
structure Transaction where
  client : ClientId
  event : Event
deriving DecidableEq

/-- `enum ErrorType` from `src/errors.rs` (the `Error` wrapper adds no data). -/
inductive ErrorType where
  | ReusedTransactionId (tx : TransactionId)
  | NegativeWithdrawal (tx : TransactionId)
  | NegativeDeposit (tx : TransactionId)
  | UnknownTransaction (tx : TransactionId)
  | LockedAccount (client : ClientId)
  | InsufficientFunds (client : ClientId) (tx : TransactionId)
  | UnknownTransactionForDispute (tx : TransactionId)
  | TransactionDoesNotMatchClient (tx : TransactionId) (client : ClientId)
  | TransactionAlreadyUnderDispute (tx : TransactionId)
  | TransactionNotUnderDispute (tx : TransactionId)
deriving DecidableEq

/-- `struct AccountInfo` from `src/lib.rs`. -/
structure AccountInfo where
  client : ClientId
  available : Rat
  held : Rat
  total : Rat
  locked : Bool
deriving DecidableEq

/-- `struct Engine` from `src/engine.rs`. -/
structure Engine where
  state : List (ClientId × ClientState)
  funds_transactions : List (TransactionId × TransactionInfo)
  global_dispute : Bool
deriving DecidableEq

/-- `Engine::new`. -/
def Engine.new : Engine :=
  { state := [], funds_transactions := [], global_dispute := false }

/-- `Engine::set_global_dispute`. -/
def Engine.set_global_dispute (e : Engine) (g : Bool) : Engine :=
  { e with global_dispute := g }

/-- The `Event::Deposit` arm of `Engine::handle` (src/engine.rs lines 30–49).
Note the source first performs the `insert`, and only then checks the old
binding, the locked flag, and so on: the error paths below faithfully keep
the mutated transaction map / account map. -/
def Engine.handleDeposit (e : Engine) (client : ClientId) (tx : TransactionId)
    (amount : Rat) : Engine × Option ErrorType :=
  if amount < 0 then (e, some (ErrorType.NegativeDeposit tx)) else
  let old := lookup tx e.funds_transactions
  let fts := upsert tx (TransactionInfo.new client amount) e.funds_transactions
  let e1 : Engine := { e with funds_transactions := fts }
  if old.isSome then (e1, some (ErrorType.ReusedTransactionId tx)) else
  let account := (lookup client e1.state).getD ClientState.default
  let e2 : Engine := { e1 with state := ensureEntry client ClientState.default e1.state }
  if account.locked then (e2, some (ErrorType.LockedAccount client)) else
  let account1 := { account with available := account.available + amount }
  ({ e2 with state := upsert client account1 e2.state }, none)

/-- The `Event::Withdrawal` arm of `Engine::handle` (src/engine.rs lines 50–77). -/
def Engine.handleWithdrawal (e : Engine) (client : ClientId) (tx : TransactionId)
    (amount : Rat) : Engine × Option ErrorType :=
  if amount < 0 then (e, some (ErrorType.NegativeWithdrawal tx)) else
  let old := lookup tx e.funds_transactions
  let fts := upsert tx (TransactionInfo.new client (-amount)) e.funds_transactions
  let e1 : Engine := { e with funds_transactions := fts }
  if old.isSome then (e1, some (ErrorType.ReusedTransactionId tx)) else
  let account := (lookup client e1.state).getD ClientState.default
  let e2 : Engine := { e1 with state := ensureEntry client ClientState.default e1.state }
  if account.locked then (e2, some (ErrorType.LockedAccount client)) else
  if account.available < amount then (e2, some (ErrorType.InsufficientFunds client tx)) else
  let account1 := { account with available := account.available - amount }
  ({ e2 with state := upsert client account1 e2.state }, none)

/-- The `Event::Dispute` arm of `Engine::handle` (src/engine.rs lines 78–103). -/
def Engine.handleDispute (e : Engine) (client : ClientId) (tx : TransactionId) :
    Engine × Option ErrorType :=
  match lookup tx e.funds_transactions with
  | none => (e, some (ErrorType.UnknownTransactionForDispute tx))
  | some info =>
    if info.client ≠ client ∧ e.global_dispute = false then
      (e, some (ErrorType.TransactionDoesNotMatchClient tx client))
    else if info.status ≠ Status.None then
      (e, some (ErrorType.TransactionAlreadyUnderDispute tx))
    else
      let info1 := { info with status := Status.UnderDispute }
      let e1 : Engine := { e with funds_transactions := upsert tx info1 e.funds_transactions }
      let account := (lookup info.client e1.state).getD ClientState.default
      let account1 :=
        { account with
            held := account.held + info.amount, available := account.available - info.amount }
      ({ e1 with state := upsert info.client account1 e1.state }, none)

/-- The `Event::Resolve` arm of `Engine::handle` (src/engine.rs lines 104–126). -/
def Engine.handleResolve (e : Engine) (client : ClientId) (tx : TransactionId) :
    Engine × Option ErrorType :=
  match lookup tx e.funds_transactions with
  | none => (e, some (ErrorType.UnknownTransactionForDispute tx))
  | some info =>
    if info.client ≠ client ∧ e.global_dispute = false then
      (e, some (ErrorType.TransactionDoesNotMatchClient tx client))
    else if info.status ≠ Status.UnderDispute then
      (e, some (ErrorType.TransactionNotUnderDispute tx))
    else
      let info1 := { info with status := Status.None }
      let e1 : Engine := { e with funds_transactions := upsert tx info1 e.funds_transactions }
      let account := (lookup info.client e1.state).getD ClientState.default
      let account1 :=
        { account with
            held := account.held - info.amount, available := account.available + info.amount }
      ({ e1 with state := upsert info.client account1 e1.state }, none)

/-- The `Event::Chargeback` arm of `Engine::handle` (src/engine.rs lines 127–149).
`available` is untouched; `locked` is set. -/
def Engine.handleChargeback (e : Engine) (client : ClientId) (tx : TransactionId) :
    Engine × Option ErrorType :=
  match lookup tx e.funds_transactions with
  | none => (e, some (ErrorType.UnknownTransactionForDispute tx))
  | some info =>
    if info.client ≠ client ∧ e.global_dispute = false then
      (e, some (ErrorType.TransactionDoesNotMatchClient tx client))
    else if info.status ≠ Status.UnderDispute then
      (e, some (ErrorType.TransactionNotUnderDispute tx))
    else
      let info1 := { info with status := Status.Reversed }
      let e1 : Engine := { e with funds_transactions := upsert tx info1 e.funds_transactions }
      let account := (lookup info.client e1.state).getD ClientState.default
      let account1 := { account with held := account.held - info.amount, locked := true }
      ({ e1 with state := upsert info.client account1 e1.state }, none)

/-- `Engine::handle` (src/engine.rs lines 28–151): dispatch on the event. -/
def Engine.handle (e : Engine) (t : Transaction) : Engine × Option ErrorType :=
  match t.event with
  | Event.Deposit tx amount => e.handleDeposit t.client tx amount
  | Event.Withdrawal tx amount => e.handleWithdrawal t.client tx amount
  | Event.Dispute tx => e.handleDispute t.client tx
  | Event.Resolve tx => e.handleResolve t.client tx
  | Event.Chargeback tx => e.handleChargeback t.client tx

/-- `Engine::account_info` (src/engine.rs lines 153–170). -/
def Engine.account_info (e : Engine) (client : ClientId) : AccountInfo :=
  match lookup client e.state with
  | none =>
    { client := client, available := 0, held := 0, total := 0, locked := false }
  | some s =>
    { client := client, available := s.available, held := s.held,
      total := s.available + s.held, locked := s.locked }

/-- `Engine::all_accounts` (src/engine.rs lines 172–180), collected to a list. -/
def Engine.all_accounts (e : Engine) : List AccountInfo :=
  e.state.map (fun p =>
    { client := p.1, available := p.2.available, held := p.2.held,
      total := p.2.available + p.2.held, locked := p.2.locked })

/-- Fold `Engine::handle` over a list of transactions (the ingestion loop of
`src/main.rs`: errors are reported and processing continues). -/
def Engine.applyAll (e : Engine) : List Transaction → Engine
  | [] => e
  | t :: ts => ((e.handle t).1).applyAll ts

/-- Events that are allowed to change a client's total: Deposit, Withdrawal,
Chargeback. -/
def Event.movesTotal : Event → Bool
  | Event.Deposit _ _ => true
  | Event.Withdrawal _ _ => true
  | Event.Chargeback _ => true
  | Event.Dispute _ => false
  | Event.Resolve _ => false

/-- Dispute and Resolve events, which the spec says only move value between
`available` and `held`. -/
def Event.isDisputeOrResolve : Event → Bool
  | Event.Dispute _ => true
  | Event.Resolve _ => true
  | Event.Deposit _ _ => false
  | Event.Withdrawal _ _ => false
  | Event.Chargeback _ => false

/-- Test fixture: a fresh engine after a single successful deposit
(client 1, tx 1, amount 10). -/
def egDeposit : Engine :=
  Engine.new.applyAll [{ client := 1, event := Event.Deposit 1 10 }]

/-- Test fixture: `egDeposit` with tx 1 under dispute. -/
def egDisputed : Engine :=
  Engine.new.applyAll
    [ { client := 1, event := Event.Deposit 1 10 },
      { client := 1, event := Event.Dispute 1 } ]

/-- Test fixture: client 1 deposits twice, disputes tx 1, and is locked by a
chargeback on tx 1; tx 2 is still undisputed. -/
def egLocked2 : Engine :=
  Engine.new.applyAll
    [ { client := 1, event := Event.Deposit 1 100 },
      { client := 1, event := Event.Deposit 2 100 },
      { client := 1, event := Event.Dispute 1 },
      { client := 1, event := Event.Chargeback 1 } ]

/-- Test fixture: engine with `global_dispute` enabled and one deposit by
client 1. -/
def egGlobal : Engine :=
  (Engine.new.set_global_dispute true).applyAll
    [ { client := 1, event := Event.Deposit 1 10 } ]

/-! ### Association-list lemmas -/

theorem lookup_upsert_self {V : Type} (k : Nat) (v : V) (l : List (Nat × V)) :
    lookup k (upsert k v l) = some v := by
  induction l with
  | nil => simp [upsert, lookup]
  | cons p rest ih =>
    by_cases h : p.1 = k
    · simp [upsert, lookup, h]
    · simp [upsert, lookup, h, ih]

theorem lookup_upsert_ne {V : Type} {k k' : Nat} (h : k' ≠ k) (v : V) (l : List (Nat × V)) :
    lookup k' (upsert k v l) = lookup k' l := by
  have h' : ¬ (k = k') := fun hk => h hk.symm
  induction l with
  | nil => simp [upsert, lookup, h']
  | cons p rest ih =>
    obtain ⟨a, b⟩ := p
    by_cases ha : a = k
    · simp [upsert, lookup, ha, h']
    · by_cases ha' : a = k'
      · simp [upsert, lookup, ha, ha', h]
      · simp [upsert, lookup, ha, ha', ih]

theorem lookup_ensureEntry_self {V : Type} (k : Nat) (d : V) (l : List (Nat × V)) :
    lookup k (ensureEntry k d l) = some ((lookup k l).getD d) := by
  unfold ensureEntry
  cases h : lookup k l with
  | none => simp [h, lookup_upsert_self]
  | some v => simp [h]

theorem lookup_ensureEntry_ne {V : Type} {k k' : Nat} (h : k' ≠ k) (d : V)
    (l : List (Nat × V)) : lookup k' (ensureEntry k d l) = lookup k' l := by
  unfold ensureEntry
  cases hk : lookup k l with
  | none => simp [lookup_upsert_ne h]
  | some v => rfl

theorem upsert_upsert {V : Type} (k : Nat) (v v' : V) (l : List (Nat × V)) :
    upsert k v (upsert k v' l) = upsert k v l := by
  induction l with
  | nil => simp [upsert]
  | cons p rest ih =>
    by_cases h : p.1 = k
    · simp [upsert, h]
    · simp [upsert, h, ih]

theorem upsert_lookup_self {V : Type} {k : Nat} {v : V} {l : List (Nat × V)}
    (h : lookup k l = some v) : upsert k v l = l := by
  induction l with
  | nil => simp [lookup] at h
  | cons p rest ih =>
    obtain ⟨a, b⟩ := p
    by_cases ha : a = k
    · simp [lookup, ha] at h
      simp [upsert, ha, h]
    · simp [lookup, ha] at h
      simp [upsert, ha, ih h]

theorem lookup_mem_values {V : Type} {k : Nat} {v : V} {l : List (Nat × V)}
    (h : lookup k l = some v) : v ∈ l.map Prod.snd := by
  induction l with
  | nil => simp [lookup] at h
  | cons p rest ih =>
    by_cases hp : p.1 = k
    · simp [lookup, hp] at h
      simp [← h]
    · simp [lookup, hp] at h
      simp [ih h]

theorem mem_values_upsert {V : Type} {w : V} {k : Nat} {v : V} {l : List (Nat × V)}
    (h : w ∈ (upsert k v l).map Prod.snd) : w = v ∨ w ∈ l.map Prod.snd := by
  induction l with
  | nil => simp [upsert] at h; exact Or.inl h
  | cons p rest ih =>
    obtain ⟨a, b⟩ := p
    by_cases ha : a = k
    · simp [upsert, ha] at h
      rcases h with h | h
      · exact Or.inl h
      · exact Or.inr (by simp [h])
    · simp [upsert, ha] at h
      rcases h with h | h
      · exact Or.inr (by simp [h])
      · rcases ih (by simpa using h) with h' | h'
        · exact Or.inl h'
        · exact Or.inr (by simp [h'])

theorem mem_keys_upsert {V : Type} {c k : Nat} {v : V} {l : List (Nat × V)}
    (h : c ∈ (upsert k v l).map Prod.fst) : c = k ∨ c ∈ l.map Prod.fst := by
  induction l with
  | nil => simp [upsert] at h; exact Or.inl h
  | cons p rest ih =>
    obtain ⟨a, b⟩ := p
    by_cases ha : a = k
    · simp [upsert, ha] at h
      rcases h with h | h
      · exact Or.inl h
      · exact Or.inr (by simp [h, ha])
    · simp [upsert, ha] at h
      rcases h with h | h
      · exact Or.inr (by simp [h])
      · rcases ih (by simpa using h) with h' | h'
        · exact Or.inl h'
        · exact Or.inr (by simp [h'])

theorem nodup_keys_upsert {V : Type} {k : Nat} {v : V} {l : List (Nat × V)}
    (h : (l.map Prod.fst).Nodup) : ((upsert k v l).map Prod.fst).Nodup := by
  induction l with
  | nil => simp [upsert]
  | cons p rest ih =>
    obtain ⟨a, b⟩ := p
    simp only [List.map_cons, List.nodup_cons] at h
    by_cases ha : a = k
    · subst ha
      simpa [upsert] using h
    · simp only [upsert, if_neg ha, List.map_cons, List.nodup_cons]
      refine ⟨fun hc => ?_, ih h.2⟩
      rcases mem_keys_upsert hc with h' | h'
      · exact ha h'
      · exact h.1 h'

theorem mem_keys_ensureEntry {V : Type} {c k : Nat} {d : V} {l : List (Nat × V)}
    (h : c ∈ (ensureEntry k d l).map Prod.fst) : c = k ∨ c ∈ l.map Prod.fst := by
  unfold ensureEntry at h
  cases hk : lookup k l with
  | none => rw [hk] at h; exact mem_keys_upsert h
  | some v => rw [hk] at h; exact Or.inr h

theorem nodup_keys_ensureEntry {V : Type} {k : Nat} {d : V} {l : List (Nat × V)}
    (h : (l.map Prod.fst).Nodup) : ((ensureEntry k d l).map Prod.fst).Nodup := by
  unfold ensureEntry
  cases hk : lookup k l with
  | none => exact nodup_keys_upsert h
  | some v => exact h

/-! ### Shapes of the dispute-lifecycle arms -/

theorem handleDispute_success (e : Engine) (client : ClientId) (tx : TransactionId)
    (info : TransactionInfo)
    (hrec : lookup tx e.funds_transactions = some info)
    (hown : ¬ (info.client ≠ client ∧ e.global_dispute = false))
    (hst : info.status = Status.None) :
    e.handleDispute client tx =
      ({ e with
          funds_transactions :=
            upsert tx { info with status := Status.UnderDispute } e.funds_transactions,
          state :=
            upsert info.client
              { available := ((lookup info.client e.state).getD ClientState.default).available
                  - info.amount,
                held := ((lookup info.client e.state).getD ClientState.default).held
                  + info.amount,
                locked := ((lookup info.client e.state).getD ClientState.default).locked }
              e.state },
       none) := by
  simp [Engine.handleDispute, hrec, hown, hst]

theorem handleResolve_success (e : Engine) (client : ClientId) (tx : TransactionId)
    (info : TransactionInfo)
    (hrec : lookup tx e.funds_transactions = some info)
    (hown : ¬ (info.client ≠ client ∧ e.global_dispute = false))
    (hst : info.status = Status.UnderDispute) :
    e.handleResolve client tx =
      ({ e with
          funds_transactions :=
            upsert tx { info with status := Status.None } e.funds_transactions,
          state :=
            upsert info.client
              { available := ((lookup info.client e.state).getD ClientState.default).available
                  + info.amount,
                held := ((lookup info.client e.state).getD ClientState.default).held
                  - info.amount,
                locked := ((lookup info.client e.state).getD ClientState.default).locked }
              e.state },
       none) := by
  simp [Engine.handleResolve, hrec, hown, hst]

theorem handleChargeback_success (e : Engine) (client : ClientId) (tx : TransactionId)
    (info : TransactionInfo)
    (hrec : lookup tx e.funds_transactions = some info)
    (hown : ¬ (info.client ≠ client ∧ e.global_dispute = false))
    (hst : info.status = Status.UnderDispute) :
    e.handleChargeback client tx =
      ({ e with
          funds_transactions :=
            upsert tx { info with status := Status.Reversed } e.funds_transactions,
          state :=
            upsert info.client
              { available := ((lookup info.client e.state).getD ClientState.default).available,
                held := ((lookup info.client e.state).getD ClientState.default).held
                  - info.amount,
                locked := true }
              e.state },
       none) := by
  simp [Engine.handleChargeback, hrec, hown, hst]

theorem handleDispute_cases (e : Engine) (client : ClientId) (tx : TransactionId) :
    (e.handleDispute client tx).1 = e ∨ (e.handleDispute client tx).2 = none := by
  unfold Engine.handleDispute
  cases lookup tx e.funds_transactions with
  | none => exact Or.inl rfl
  | some info =>
    by_cases hown : info.client ≠ client ∧ e.global_dispute = false
    · simp [hown]
    · by_cases hst : info.status ≠ Status.None
      · simp [hown, hst]
      · simp [hown, hst]

theorem handleResolve_cases (e : Engine) (client : ClientId) (tx : TransactionId) :
    (e.handleResolve client tx).1 = e ∨ (e.handleResolve client tx).2 = none := by
  unfold Engine.handleResolve
  cases lookup tx e.funds_transactions with
  | none => exact Or.inl rfl
  | some info =>
    by_cases hown : info.client ≠ client ∧ e.global_dispute = false
    · simp [hown]
    · by_cases hst : info.status ≠ Status.UnderDispute
      · simp [hown, hst]
      · simp [hown, hst]

theorem handleChargeback_cases (e : Engine) (client : ClientId) (tx : TransactionId) :
    (e.handleChargeback client tx).1 = e ∨ (e.handleChargeback client tx).2 = none := by
  unfold Engine.handleChargeback
  cases lookup tx e.funds_transactions with
  | none => exact Or.inl rfl
  | some info =>
    by_cases hown : info.client ≠ client ∧ e.global_dispute = false
    · simp [hown]
    · by_cases hst : info.status ≠ Status.UnderDispute
      · simp [hown, hst]
      · simp [hown, hst]

theorem account_info_fields (e : Engine) (c : ClientId) :
    (e.account_info c).available = ((lookup c e.state).getD ClientState.default).available ∧
    (e.account_info c).held = ((lookup c e.state).getD ClientState.default).held ∧
    (e.account_info c).locked = ((lookup c e.state).getD ClientState.default).locked ∧
    (e.account_info c).total = ((lookup c e.state).getD ClientState.default).available
      + ((lookup c e.state).getD ClientState.default).held := by
  cases h : lookup c e.state <;> simp [Engine.account_info, h, ClientState.default]

theorem upsert_ensureEntry {V : Type} (k : Nat) (v d : V) (l : List (Nat × V)) :
    upsert k v (ensureEntry k d l) = upsert k v l := by
  unfold ensureEntry
  cases hk : lookup k l with
  | none => exact upsert_upsert k v d l
  | some w => rfl

theorem total_state_upsert (e e' : Engine) (k : ClientId) (v : ClientState)
    (h : e'.state = upsert k v e.state)
    (hv : v.available + v.held
        = ((lookup k e.state).getD ClientState.default).available
          + ((lookup k e.state).getD ClientState.default).held) (c : ClientId) :
    (e'.account_info c).total = (e.account_info c).total := by
  rcases account_info_fields e' c with ⟨_, _, _, ht'⟩
  rcases account_info_fields e c with ⟨_, _, _, ht⟩
  rw [ht', ht, h]
  by_cases hc : c = k
  · subst hc
    rw [lookup_upsert_self]
    simpa using hv
  · rw [lookup_upsert_ne hc]

theorem total_state_ensureEntry (e e' : Engine) (k : ClientId)
    (h : e'.state = ensureEntry k ClientState.default e.state) (c : ClientId) :
    (e'.account_info c).total = (e.account_info c).total := by
  rcases account_info_fields e' c with ⟨_, _, _, ht'⟩
  rcases account_info_fields e c with ⟨_, _, _, ht⟩
  rw [ht', ht, h]
  by_cases hc : c = k
  · subst hc
    rw [lookup_ensureEntry_self]
    cases hlk : lookup c e.state <;> simp [ClientState.default]
  · rw [lookup_ensureEntry_ne hc]

theorem handleDeposit_total (e : Engine) (cl : ClientId) (tx : TransactionId)
    (amount : Rat) :
    ((e.handleDeposit cl tx amount).2 = none) ∨
    (∀ c, ((e.handleDeposit cl tx amount).1.account_info c).total
      = (e.account_info c).total) := by
  simp only [Engine.handleDeposit]
  split
  · right
    intro c
    rfl
  · split
    · right
      intro c
      rfl
    · split
      · right
        intro c
        exact total_state_ensureEntry e _ cl rfl c
      · left
        rfl

theorem handleWithdrawal_total (e : Engine) (cl : ClientId) (tx : TransactionId)
    (amount : Rat) :
    ((e.handleWithdrawal cl tx amount).2 = none) ∨
    (∀ c, ((e.handleWithdrawal cl tx amount).1.account_info c).total
      = (e.account_info c).total) := by
  simp only [Engine.handleWithdrawal]
  split
  · right
    intro c
    rfl
  · split
    · right
      intro c
      rfl
    · split
      · right
        intro c
        exact total_state_ensureEntry e _ cl rfl c
      · split
        · right
          intro c
          exact total_state_ensureEntry e _ cl rfl c
        · left
          rfl

theorem handleDispute_total (e : Engine) (cl : ClientId) (tx : TransactionId)
    (c : ClientId) :
    ((e.handleDispute cl tx).1.account_info c).total = (e.account_info c).total := by
  cases hlk : lookup tx e.funds_transactions with
  | none => simp [Engine.handleDispute, hlk]
  | some info =>
    by_cases hown : info.client ≠ cl ∧ e.global_dispute = false
    · simp [Engine.handleDispute, hlk, hown]
    · by_cases hst : info.status = Status.None
      · have hs := handleDispute_success e cl tx info hlk hown hst
        rw [hs]
        refine total_state_upsert e _ info.client _ rfl ?_ c
        simp only
        ring
      · simp [Engine.handleDispute, hlk, hown, hst]

theorem handleResolve_total (e : Engine) (cl : ClientId) (tx : TransactionId)
    (c : ClientId) :
    ((e.handleResolve cl tx).1.account_info c).total = (e.account_info c).total := by
  cases hlk : lookup tx e.funds_transactions with
  | none => simp [Engine.handleResolve, hlk]
  | some info =>
    by_cases hown : info.client ≠ cl ∧ e.global_dispute = false
    · simp [Engine.handleResolve, hlk, hown]
    · by_cases hst : info.status = Status.UnderDispute
      · have hs := handleResolve_success e cl tx info hlk hown hst
        rw [hs]
        refine total_state_upsert e _ info.client _ rfl ?_ c
        simp only
        ring
      · simp [Engine.handleResolve, hlk, hown, hst]

theorem handleChargeback_total_or_ok (e : Engine) (cl : ClientId) (tx : TransactionId) :
    ((e.handleChargeback cl tx).2 = none) ∨
    (∀ c, ((e.handleChargeback cl tx).1.account_info c).total
      = (e.account_info c).total) := by
  cases hlk : lookup tx e.funds_transactions with
  | none =>
    right
    intro c
    simp [Engine.handleChargeback, hlk]
  | some info =>
    by_cases hown : info.client ≠ cl ∧ e.global_dispute = false
    · right
      intro c
      simp [Engine.handleChargeback, hlk, hown]
    · by_cases hst : info.status = Status.UnderDispute
      · left
        have hs := handleChargeback_success e cl tx info hlk hown hst
        rw [hs]
      · right
        intro c
        simp [Engine.handleChargeback, hlk, hown, hst]

/-- Every call to `handle` either succeeds with a total-moving event kind
(Deposit, Withdrawal, Chargeback), or preserves every client's reported total. -/
theorem handle_total_dichotomy (e : Engine) (t : Transaction) :
    ((e.handle t).2 = none ∧ t.event.movesTotal = true) ∨
    (∀ c, ((e.handle t).1.account_info c).total = (e.account_info c).total) := by
  obtain ⟨cl, ev⟩ := t
  cases ev with
  | Deposit tx amount =>
    rcases handleDeposit_total e cl tx amount with h | h
    · exact Or.inl ⟨h, rfl⟩
    · exact Or.inr h
  | Withdrawal tx amount =>
    rcases handleWithdrawal_total e cl tx amount with h | h
    · exact Or.inl ⟨h, rfl⟩
    · exact Or.inr h
  | Dispute tx => exact Or.inr (handleDispute_total e cl tx)
  | Resolve tx => exact Or.inr (handleResolve_total e cl tx)
  | Chargeback tx =>
    rcases handleChargeback_total_or_ok e cl tx with h | h
    · exact Or.inl ⟨h, rfl⟩
    · exact Or.inr h

theorem lookup_locked_of_account_info (e : Engine) (c : ClientId)
    (h : (e.account_info c).locked = true) :
    ∃ s, lookup c e.state = some s ∧ s.locked = true := by
  rcases account_info_fields e c with ⟨_, _, hl, _⟩
  rw [hl] at h
  cases hlk : lookup c e.state with
  | none =>
    rw [hlk] at h
    simp [ClientState.default] at h
  | some s =>
    rw [hlk] at h
    exact ⟨s, rfl, h⟩

theorem handle_locked_mono (e : Engine) (t : Transaction) (c : ClientId)
    (h : (e.account_info c).locked = true) :
    ((e.handle t).1.account_info c).locked = true := by
  obtain ⟨s, hlk, hsl⟩ := lookup_locked_of_account_info e c h
  obtain ⟨cl, ev⟩ := t
  rcases account_info_fields (Engine.handle e ⟨cl, ev⟩).1 c with ⟨_, _, hl', _⟩
  rw [hl']
  cases ev with
  | Deposit tx amount =>
    simp only [Engine.handle, Engine.handleDeposit]
    split
    · simp [hlk, hsl]
    · split
      · simp [hlk, hsl]
      · split
        · by_cases hc : c = cl
          · subst hc
            simp [ensureEntry, hlk, hsl]
          · rw [lookup_ensureEntry_ne hc, hlk]
            simpa using hsl
        · rename_i hnl
          by_cases hc : c = cl
          · subst hc
            exfalso
            exact hnl (by simp [hlk, hsl])
          · rw [lookup_upsert_ne hc, lookup_ensureEntry_ne hc, hlk]
            simpa using hsl
  | Withdrawal tx amount =>
    simp only [Engine.handle, Engine.handleWithdrawal]
    split
    · simp [hlk, hsl]
    · split
      · simp [hlk, hsl]
      · split
        · by_cases hc : c = cl
          · subst hc
            simp [ensureEntry, hlk, hsl]
          · rw [lookup_ensureEntry_ne hc, hlk]
            simpa using hsl
        · split
          · by_cases hc : c = cl
            · subst hc
              simp [ensureEntry, hlk, hsl]
            · rw [lookup_ensureEntry_ne hc, hlk]
              simpa using hsl
          · rename_i hnl _
            by_cases hc : c = cl
            · subst hc
              exfalso
              exact hnl (by simp [hlk, hsl])
            · rw [lookup_upsert_ne hc, lookup_ensureEntry_ne hc, hlk]
              simpa using hsl
  | Dispute tx =>
    cases hrec : lookup tx e.funds_transactions with
    | none => simp [Engine.handle, Engine.handleDispute, hrec, hlk, hsl]
    | some info =>
      by_cases hown : info.client ≠ cl ∧ e.global_dispute = false
      · simp [Engine.handle, Engine.handleDispute, hrec, hown, hlk, hsl]
      · by_cases hst : info.status = Status.None
        · have hs := handleDispute_success e cl tx info hrec hown hst
          simp only [Engine.handle, hs]
          by_cases hc : c = info.client
          · subst hc
            rw [lookup_upsert_self]
            simp [hlk, hsl]
          · rw [lookup_upsert_ne hc, hlk]
            simpa using hsl
        · simp [Engine.handle, Engine.handleDispute, hrec, hown, hst, hlk, hsl]
  | Resolve tx =>
    cases hrec : lookup tx e.funds_transactions with
    | none => simp [Engine.handle, Engine.handleResolve, hrec, hlk, hsl]
    | some info =>
      by_cases hown : info.client ≠ cl ∧ e.global_dispute = false
      · simp [Engine.handle, Engine.handleResolve, hrec, hown, hlk, hsl]
      · by_cases hst : info.status = Status.UnderDispute
        · have hs := handleResolve_success e cl tx info hrec hown hst
          simp only [Engine.handle, hs]
          by_cases hc : c = info.client
          · subst hc
            rw [lookup_upsert_self]
            simp [hlk, hsl]
          · rw [lookup_upsert_ne hc, hlk]
            simpa using hsl
        · simp [Engine.handle, Engine.handleResolve, hrec, hown, hst, hlk, hsl]
  | Chargeback tx =>
    cases hrec : lookup tx e.funds_transactions with
    | none => simp [Engine.handle, Engine.handleChargeback, hrec, hlk, hsl]
    | some info =>
      by_cases hown : info.client ≠ cl ∧ e.global_dispute = false
      · simp [Engine.handle, Engine.handleChargeback, hrec, hown, hlk, hsl]
      · by_cases hst : info.status = Status.UnderDispute
        · have hs := handleChargeback_success e cl tx info hrec hown hst
          simp only [Engine.handle, hs]
          by_cases hc : c = info.client
          · subst hc
            rw [lookup_upsert_self]
            simp
          · rw [lookup_upsert_ne hc, hlk]
            simpa using hsl
        · simp [Engine.handle, Engine.handleChargeback, hrec, hown, hst, hlk, hsl]

theorem applyAll_locked_mono (ts : List Transaction) (e : Engine) (c : ClientId)
    (h : (e.account_info c).locked = true) :
    ((e.applyAll ts).account_info c).locked = true := by
  induction ts generalizing e with
  | nil => exact h
  | cons t ts ih => exact ih _ (handle_locked_mono e t c h)

theorem locked_blocks_deposit (e : Engine) (c : ClientId) (tx : TransactionId)
    (amount : Rat)
    (hl : (e.account_info c).locked = true)
    (hamt : 0 ≤ amount)
    (hfresh : lookup tx e.funds_transactions = none) :
    (e.handle { client := c, event := Event.Deposit tx amount }).2
      = some (ErrorType.LockedAccount c) := by
  obtain ⟨s, hlk, hsl⟩ := lookup_locked_of_account_info e c hl
  simp [Engine.handle, Engine.handleDeposit, not_lt.mpr hamt, hfresh, hlk, hsl]

theorem locked_blocks_withdrawal (e : Engine) (c : ClientId) (tx : TransactionId)
    (amount : Rat)
    (hl : (e.account_info c).locked = true)
    (hamt : 0 ≤ amount)
    (hfresh : lookup tx e.funds_transactions = none) :
    (e.handle { client := c, event := Event.Withdrawal tx amount }).2
      = some (ErrorType.LockedAccount c) := by
  obtain ⟨s, hlk, hsl⟩ := lookup_locked_of_account_info e c hl
  simp [Engine.handle, Engine.handleWithdrawal, not_lt.mpr hamt, hfresh, hlk, hsl]

theorem mem_clients_upsert {c : ClientId} {tx : TransactionId} {v : TransactionInfo}
    {l : List (TransactionId × TransactionInfo)}
    (h : c ∈ ((upsert tx v l).map Prod.snd).map TransactionInfo.client) :
    c = v.client ∨ c ∈ (l.map Prod.snd).map TransactionInfo.client := by
  rcases List.mem_map.1 h with ⟨w, hw, hwc⟩
  rcases mem_values_upsert hw with h' | h'
  · exact Or.inl (by rw [← hwc, h'])
  · exact Or.inr (List.mem_map.2 ⟨w, h', hwc⟩)

theorem handle_nodup_keys (e : Engine) (t : Transaction)
    (h : (e.state.map Prod.fst).Nodup) :
    ((e.handle t).1.state.map Prod.fst).Nodup := by
  obtain ⟨cl, ev⟩ := t
  cases ev with
  | Deposit tx amount =>
    simp only [Engine.handle, Engine.handleDeposit]
    split
    · exact h
    · split
      · exact h
      · split
        · exact nodup_keys_ensureEntry h
        · exact nodup_keys_upsert (nodup_keys_ensureEntry h)
  | Withdrawal tx amount =>
    simp only [Engine.handle, Engine.handleWithdrawal]
    split
    · exact h
    · split
      · exact h
      · split
        · exact nodup_keys_ensureEntry h
        · split
          · exact nodup_keys_ensureEntry h
          · exact nodup_keys_upsert (nodup_keys_ensureEntry h)
  | Dispute tx =>
    cases hrec : lookup tx e.funds_transactions with
    | none =>
      have he : (e.handleDispute cl tx).1 = e := by
        simp [Engine.handleDispute, hrec]
      simpa only [Engine.handle, he] using h
    | some info =>
      by_cases hown : info.client ≠ cl ∧ e.global_dispute = false
      · have he : (e.handleDispute cl tx).1 = e := by
          simp [Engine.handleDispute, hrec, hown]
        simpa only [Engine.handle, he] using h
      · by_cases hst : info.status = Status.None
        · have hs := handleDispute_success e cl tx info hrec hown hst
          simp only [Engine.handle, hs]
          exact nodup_keys_upsert h
        · have he : (e.handleDispute cl tx).1 = e := by
            simp [Engine.handleDispute, hrec, hown, hst]
          simpa only [Engine.handle, he] using h
  | Resolve tx =>
    cases hrec : lookup tx e.funds_transactions with
    | none =>
      have he : (e.handleResolve cl tx).1 = e := by
        simp [Engine.handleResolve, hrec]
      simpa only [Engine.handle, he] using h
    | some info =>
      by_cases hown : info.client ≠ cl ∧ e.global_dispute = false
      · have he : (e.handleResolve cl tx).1 = e := by
          simp [Engine.handleResolve, hrec, hown]
        simpa only [Engine.handle, he] using h
      · by_cases hst : info.status = Status.UnderDispute
        · have hs := handleResolve_success e cl tx info hrec hown hst
          simp only [Engine.handle, hs]
          exact nodup_keys_upsert h
        · have he : (e.handleResolve cl tx).1 = e := by
            simp [Engine.handleResolve, hrec, hown, hst]
          simpa only [Engine.handle, he] using h
  | Chargeback tx =>
    cases hrec : lookup tx e.funds_transactions with
    | none =>
      have he : (e.handleChargeback cl tx).1 = e := by
        simp [Engine.handleChargeback, hrec]
      simpa only [Engine.handle, he] using h
    | some info =>
      by_cases hown : info.client ≠ cl ∧ e.global_dispute = false
      · have he : (e.handleChargeback cl tx).1 = e := by
          simp [Engine.handleChargeback, hrec, hown]
        simpa only [Engine.handle, he] using h
      · by_cases hst : info.status = Status.UnderDispute
        · have hs := handleChargeback_success e cl tx info hrec hown hst
          simp only [Engine.handle, hs]
          exact nodup_keys_upsert h
        · have he : (e.handleChargeback cl tx).1 = e := by
            simp [Engine.handleChargeback, hrec, hown, hst]
          simpa only [Engine.handle, he] using h

theorem handle_clients_sub (e : Engine) (t : Transaction) (c : ClientId)
    (hc : c ∈ (e.handle t).1.state.map Prod.fst ∨
      c ∈ (((e.handle t).1.funds_transactions.map Prod.snd).map TransactionInfo.client)) :
    (c ∈ e.state.map Prod.fst ∨
      c ∈ ((e.funds_transactions.map Prod.snd).map TransactionInfo.client)) ∨
    c = t.client := by
  obtain ⟨cl, ev⟩ := t
  simp only at hc ⊢
  cases ev with
  | Deposit tx amount =>
    simp only [Engine.handle, Engine.handleDeposit] at hc
    split at hc
    · exact Or.inl hc
    · split at hc
      · rcases hc with hc | hc
        · exact Or.inl (Or.inl hc)
        · rcases mem_clients_upsert hc with h | h
          · exact Or.inr h
          · exact Or.inl (Or.inr h)
      · split at hc
        · rcases hc with hc | hc
          · rcases mem_keys_ensureEntry hc with h | h
            · exact Or.inr h
            · exact Or.inl (Or.inl h)
          · rcases mem_clients_upsert hc with h | h
            · exact Or.inr h
            · exact Or.inl (Or.inr h)
        · rcases hc with hc | hc
          · rcases mem_keys_upsert hc with h | h
            · exact Or.inr h
            · rcases mem_keys_ensureEntry h with h' | h'
              · exact Or.inr h'
              · exact Or.inl (Or.inl h')
          · rcases mem_clients_upsert hc with h | h
            · exact Or.inr h
            · exact Or.inl (Or.inr h)
  | Withdrawal tx amount =>
    simp only [Engine.handle, Engine.handleWithdrawal] at hc
    split at hc
    · exact Or.inl hc
    · split at hc
      · rcases hc with hc | hc
        · exact Or.inl (Or.inl hc)
        · rcases mem_clients_upsert hc with h | h
          · exact Or.inr h
          · exact Or.inl (Or.inr h)
      · split at hc
        · rcases hc with hc | hc
          · rcases mem_keys_ensureEntry hc with h | h
            · exact Or.inr h
            · exact Or.inl (Or.inl h)
          · rcases mem_clients_upsert hc with h | h
            · exact Or.inr h
            · exact Or.inl (Or.inr h)
        · split at hc
          · rcases hc with hc | hc
            · rcases mem_keys_ensureEntry hc with h | h
              · exact Or.inr h
              · exact Or.inl (Or.inl h)
            · rcases mem_clients_upsert hc with h | h
              · exact Or.inr h
              · exact Or.inl (Or.inr h)
          · rcases hc with hc | hc
            · rcases mem_keys_upsert hc with h | h
              · exact Or.inr h
              · rcases mem_keys_ensureEntry h with h' | h'
                · exact Or.inr h'
                · exact Or.inl (Or.inl h')
            · rcases mem_clients_upsert hc with h | h
              · exact Or.inr h
              · exact Or.inl (Or.inr h)
  | Dispute tx =>
    cases hrec : lookup tx e.funds_transactions with
    | none =>
      have he : (e.handleDispute cl tx).1 = e := by
        simp [Engine.handleDispute, hrec]
      simp only [Engine.handle] at hc
      rw [he] at hc
      exact Or.inl hc
    | some info =>
      have hinfo : info.client ∈ (e.funds_transactions.map Prod.snd).map
          TransactionInfo.client :=
        List.mem_map.2 ⟨info, lookup_mem_values hrec, rfl⟩
      by_cases hown : info.client ≠ cl ∧ e.global_dispute = false
      · have he : (e.handleDispute cl tx).1 = e := by
          simp [Engine.handleDispute, hrec, hown]
        simp only [Engine.handle] at hc
        rw [he] at hc
        exact Or.inl hc
      · by_cases hst : info.status = Status.None
        · have hs := handleDispute_success e cl tx info hrec hown hst
          simp only [Engine.handle] at hc
          rw [hs] at hc
          rcases hc with hc | hc
          · rcases mem_keys_upsert hc with h | h
            · exact Or.inl (Or.inr (h ▸ hinfo))
            · exact Or.inl (Or.inl h)
          · rcases mem_clients_upsert hc with h | h
            · exact Or.inl (Or.inr (by rw [h]; exact hinfo))
            · exact Or.inl (Or.inr h)
        · have he : (e.handleDispute cl tx).1 = e := by
            simp [Engine.handleDispute, hrec, hown, hst]
          simp only [Engine.handle] at hc
          rw [he] at hc
          exact Or.inl hc
  | Resolve tx =>
    cases hrec : lookup tx e.funds_transactions with
    | none =>
      have he : (e.handleResolve cl tx).1 = e := by
        simp [Engine.handleResolve, hrec]
      simp only [Engine.handle] at hc
      rw [he] at hc
      exact Or.inl hc
    | some info =>
      have hinfo : info.client ∈ (e.funds_transactions.map Prod.snd).map
          TransactionInfo.client :=
        List.mem_map.2 ⟨info, lookup_mem_values hrec, rfl⟩
      by_cases hown : info.client ≠ cl ∧ e.global_dispute = false
      · have he : (e.handleResolve cl tx).1 = e := by
          simp [Engine.handleResolve, hrec, hown]
        simp only [Engine.handle] at hc
        rw [he] at hc
        exact Or.inl hc
      · by_cases hst : info.status = Status.UnderDispute
        · have hs := handleResolve_success e cl tx info hrec hown hst
          simp only [Engine.handle] at hc
          rw [hs] at hc
          rcases hc with hc | hc
          · rcases mem_keys_upsert hc with h | h
            · exact Or.inl (Or.inr (h ▸ hinfo))
            · exact Or.inl (Or.inl h)
          · rcases mem_clients_upsert hc with h | h
            · exact Or.inl (Or.inr (by rw [h]; exact hinfo))
            · exact Or.inl (Or.inr h)
        · have he : (e.handleResolve cl tx).1 = e := by
            simp [Engine.handleResolve, hrec, hown, hst]
          simp only [Engine.handle] at hc
          rw [he] at hc
          exact Or.inl hc
  | Chargeback tx =>
    cases hrec : lookup tx e.funds_transactions with
    | none =>
      have he : (e.handleChargeback cl tx).1 = e := by
        simp [Engine.handleChargeback, hrec]
      simp only [Engine.handle] at hc
      rw [he] at hc
      exact Or.inl hc
    | some info =>
      have hinfo : info.client ∈ (e.funds_transactions.map Prod.snd).map
          TransactionInfo.client :=
        List.mem_map.2 ⟨info, lookup_mem_values hrec, rfl⟩
      by_cases hown : info.client ≠ cl ∧ e.global_dispute = false
      · have he : (e.handleChargeback cl tx).1 = e := by
          simp [Engine.handleChargeback, hrec, hown]
        simp only [Engine.handle] at hc
        rw [he] at hc
        exact Or.inl hc
      · by_cases hst : info.status = Status.UnderDispute
        · have hs := handleChargeback_success e cl tx info hrec hown hst
          simp only [Engine.handle] at hc
          rw [hs] at hc
          rcases hc with hc | hc
          · rcases mem_keys_upsert hc with h | h
            · exact Or.inl (Or.inr (h ▸ hinfo))
            · exact Or.inl (Or.inl h)
          · rcases mem_clients_upsert hc with h | h
            · exact Or.inl (Or.inr (by rw [h]; exact hinfo))
            · exact Or.inl (Or.inr h)
        · have he : (e.handleChargeback cl tx).1 = e := by
            simp [Engine.handleChargeback, hrec, hown, hst]
          simp only [Engine.handle] at hc
          rw [he] at hc
          exact Or.inl hc

theorem applyAll_clients (ts : List Transaction) (e : Engine)
    (hnd : (e.state.map Prod.fst).Nodup) :
    ((e.applyAll ts).state.map Prod.fst).Nodup ∧
    ∀ c, (c ∈ (e.applyAll ts).state.map Prod.fst ∨
        c ∈ (((e.applyAll ts).funds_transactions.map Prod.snd).map
          TransactionInfo.client)) →
      (c ∈ e.state.map Prod.fst ∨
        c ∈ ((e.funds_transactions.map Prod.snd).map TransactionInfo.client)) ∨
      c ∈ ts.map Transaction.client := by
  induction ts generalizing e with
  | nil => exact ⟨hnd, fun c hc => Or.inl hc⟩
  | cons t ts ih =>
    obtain ⟨ih1, ih2⟩ := ih (e.handle t).1 (handle_nodup_keys e t hnd)
    refine ⟨ih1, fun c hc => ?_⟩
    rcases ih2 c hc with h | h
    · rcases handle_clients_sub e t c h with h' | h'
      · exact Or.inl h'
      · exact Or.inr (by simp [h'])
    · exact Or.inr (by simp [h])

/-! ### Claim theorems -/

/-- C3: a successful Dispute or Resolve leaves every client's `available + held`
unchanged; a client's reported total changes only through a successful Deposit,
Withdrawal, or Chargeback; and every snapshot (single or bulk) reports
`total = available + held`. -/
theorem C3_total_conservation (e : Engine) (t : Transaction) (c : ClientId) :
    (((e.handle t).2 = none ∧ t.event.isDisputeOrResolve = true) →
      ((e.handle t).1.account_info c).total = (e.account_info c).total) ∧
    (((e.handle t).1.account_info c).total ≠ (e.account_info c).total →
      (e.handle t).2 = none ∧ t.event.movesTotal = true) ∧
    ((e.account_info c).total
      = (e.account_info c).available + (e.account_info c).held) ∧
    (∀ a ∈ e.all_accounts, a.total = a.available + a.held) := by
  refine ⟨?_, ?_, ?_, ?_⟩
  · rintro ⟨hok, hdr⟩
    rcases handle_total_dichotomy e t with ⟨_, hmv⟩ | h
    · exfalso
      obtain ⟨cl, ev⟩ := t
      cases ev <;> simp [Event.movesTotal, Event.isDisputeOrResolve] at hmv hdr
    · exact h c
  · intro hne
    rcases handle_total_dichotomy e t with h | h
    · exact h
    · exact absurd (h c) hne
  · rcases account_info_fields e c with ⟨ha, hh, _, ht⟩
    rw [ht, ha, hh]
  · intro a ha
    simp only [Engine.all_accounts, List.mem_map] at ha
    obtain ⟨p, _, rfl⟩ := ha
    rfl

/-- C7: for a Dispute, Resolve, or Chargeback whose transaction identifier exists
but whose record is owned by a different client, the event fails with
`TransactionDoesNotMatchClient` (and mutates nothing) when `global_dispute` is
off, and that ownership rejection can never be the outcome when
`global_dispute` is on. -/
theorem C7_ownership_check (e : Engine) (t : Transaction) (tx : TransactionId)
    (info : TransactionInfo)
    (hev : t.event = Event.Dispute tx ∨ t.event = Event.Resolve tx ∨
      t.event = Event.Chargeback tx)
    (hrec : lookup tx e.funds_transactions = some info)
    (hne : info.client ≠ t.client) :
    (e.global_dispute = false →
      e.handle t = (e, some (ErrorType.TransactionDoesNotMatchClient tx t.client))) ∧
    (e.global_dispute = true →
      (e.handle t).2 ≠ some (ErrorType.TransactionDoesNotMatchClient tx t.client)) := by
  obtain ⟨c, ev⟩ := t
  simp only at hev hne ⊢
  constructor
  · intro hg
    rcases hev with h | h | h <;>
      (subst h
       simp [Engine.handle, Engine.handleDispute, Engine.handleResolve,
         Engine.handleChargeback, hrec, hne, hg])
  · intro hg
    rcases hev with h | h | h <;>
      (subst h
       simp only [Engine.handle, Engine.handleDispute, Engine.handleResolve,
         Engine.handleChargeback, hrec, hg]
       split <;> simp_all <;> split <;> simp_all)

/-- C8: a locked account can still be the target of a new Dispute on a
transaction of that account whose status is `None`: the dispute succeeds and
performs the normal balance movement (`held += signed_amount`,
`available -= signed_amount`), with the account staying locked; more generally
locking blocks only Deposit/Withdrawal, never Dispute, Resolve, or Chargeback
(a Resolve or Chargeback by the owner on an under-dispute transaction of the
locked account also succeeds). -/
theorem C8_locked_account_dispute (e : Engine) (tx : TransactionId)
    (info : TransactionInfo)
    (hrec : lookup tx e.funds_transactions = some info)
    (hst : info.status = Status.None)
    (hlocked : (e.account_info info.client).locked = true) :
    ((e.handle { client := info.client, event := Event.Dispute tx }).2 = none) ∧
    (((e.handle { client := info.client, event := Event.Dispute tx }).1.account_info
        info.client).held = (e.account_info info.client).held + info.amount) ∧
    (((e.handle { client := info.client, event := Event.Dispute tx }).1.account_info
        info.client).available
      = (e.account_info info.client).available - info.amount) ∧
    (((e.handle { client := info.client, event := Event.Dispute tx }).1.account_info
        info.client).locked = true) ∧
    (∀ (tx2 : TransactionId) (info2 : TransactionInfo),
      lookup tx2 e.funds_transactions = some info2 →
      info2.status = Status.UnderDispute →
      ((e.handle { client := info2.client, event := Event.Resolve tx2 }).2 = none) ∧
      ((e.handle { client := info2.client, event := Event.Chargeback tx2 }).2 = none)) := by
  have hown : ¬ (info.client ≠ info.client ∧ e.global_dispute = false) := by simp
  have hs := handleDispute_success e info.client tx info hrec hown hst
  have hrest : ∀ (tx2 : TransactionId) (info2 : TransactionInfo),
      lookup tx2 e.funds_transactions = some info2 →
      info2.status = Status.UnderDispute →
      ((e.handle { client := info2.client, event := Event.Resolve tx2 }).2 = none) ∧
      ((e.handle { client := info2.client, event := Event.Chargeback tx2 }).2 = none) := by
    intro tx2 info2 hrec2 hst2
    have hown2 : ¬ (info2.client ≠ info2.client ∧ e.global_dispute = false) := by simp
    have hsr := handleResolve_success e info2.client tx2 info2 hrec2 hown2 hst2
    have hsc := handleChargeback_success e info2.client tx2 info2 hrec2 hown2 hst2
    exact ⟨by simp [Engine.handle, hsr], by simp [Engine.handle, hsc]⟩
  refine ?_
  simp only [Engine.handle, hs]
  cases hlk : lookup info.client e.state with
  | none => simp [Engine.account_info, hlk] at hlocked
  | some s =>
    simp [Engine.account_info, hlk, lookup_upsert_self] at hlocked ⊢
    exact ⟨hlocked, fun tx2 info2 h2 h2' => hrest tx2 info2 h2 h2'⟩

theorem all_accounts_clients (e : Engine) :
    e.all_accounts.map AccountInfo.client = e.state.map Prod.fst := by
  simp only [Engine.all_accounts, List.map_map]
  rfl

/-- C9 counterexample: client 1 has had an event applied referencing it (a
Deposit with a negative amount, which is rejected before the account is
created), yet `all_accounts` lists no entry for client 1 — so "no client with
at least one event is missing" is false at this input. -/
theorem C9_counterexample :
    (1 : ClientId) ∈ ([{ client := 1, event := Event.Deposit 1 (-1) }] :
        List Transaction).map Transaction.client ∧
    (1 : ClientId) ∉ ((Engine.new.applyAll
        [{ client := 1, event := Event.Deposit 1 (-1) }]).all_accounts.map
        AccountInfo.client) := by
  decide

/-- C9 (amended): starting from a fresh engine, `all_accounts` yields at most
one entry per client (no duplicates), and every listed client is the `client`
field of some applied event; but a client may be missing even though an event
referenced it, when all of its events were rejected before the account-creation
step (e.g. a negative amount or a reused transaction id). -/
theorem C9_snapshot_all (ts : List Transaction) :
    (((Engine.new.applyAll ts).all_accounts.map AccountInfo.client).Nodup) ∧
    (∀ c, c ∈ (Engine.new.applyAll ts).all_accounts.map AccountInfo.client →
      c ∈ ts.map Transaction.client) := by
  obtain ⟨h1, h2⟩ := applyAll_clients ts Engine.new (by simp [Engine.new])
  rw [all_accounts_clients]
  refine ⟨h1, fun c hc => ?_⟩
  rcases h2 c (Or.inl hc) with h | h
  · simp [Engine.new] at h
  · exact h

/-- C5 counterexample: after a chargeback locks client 1's account, a Deposit
targeting that client with a negative amount fails with `NegativeDeposit`,
not `LockedAccount` — so, as stated, "every Deposit or Withdrawal targeting
that client fails with LockedAccount" is false at this input. -/
theorem C5_counterexample :
    ((Engine.new.applyAll
        [ { client := 1, event := Event.Deposit 1 10 },
          { client := 1, event := Event.Dispute 1 },
          { client := 1, event := Event.Chargeback 1 } ]).account_info 1).locked = true ∧
    ((Engine.new.applyAll
        [ { client := 1, event := Event.Deposit 1 10 },
          { client := 1, event := Event.Dispute 1 },
          { client := 1, event := Event.Chargeback 1 } ]).handle
      { client := 1, event := Event.Deposit 2 (-1) }).2
        = some (ErrorType.NegativeDeposit 2) ∧
    ((Engine.new.applyAll
        [ { client := 1, event := Event.Deposit 1 10 },
          { client := 1, event := Event.Dispute 1 },
          { client := 1, event := Event.Chargeback 1 } ]).handle
      { client := 1, event := Event.Deposit 2 (-1) }).2
        ≠ some (ErrorType.LockedAccount 1) := by
  decide

/-- C5 (amended): a successful Chargeback on a transaction under dispute sets
the record's status to `Reversed`, decreases the owner's `held` by the record's
signed amount, leaves `available` unchanged, and locks the owner's account;
afterwards (after any further event sequence) the account is still locked, and
every Deposit or Withdrawal targeting that client with a non-negative amount
and an unused transaction id fails with `LockedAccount` (events with a
negative amount or a reused id fail with their earlier check's error instead). -/
theorem C5_chargeback_locks (e : Engine) (filer : ClientId) (tx : TransactionId)
    (info : TransactionInfo)
    (hrec : lookup tx e.funds_transactions = some info)
    (hst : info.status = Status.UnderDispute)
    (hsucc : (e.handle { client := filer, event := Event.Chargeback tx }).2 = none) :
    (lookup tx
        (e.handle { client := filer, event := Event.Chargeback tx }).1.funds_transactions
      = some { info with status := Status.Reversed }) ∧
    (((e.handle { client := filer, event := Event.Chargeback tx }).1.account_info
        info.client).held = (e.account_info info.client).held - info.amount) ∧
    (((e.handle { client := filer, event := Event.Chargeback tx }).1.account_info
        info.client).available = (e.account_info info.client).available) ∧
    (((e.handle { client := filer, event := Event.Chargeback tx }).1.account_info
        info.client).locked = true) ∧
    (∀ (ts : List Transaction) (tx' : TransactionId) (amount : Rat),
      0 ≤ amount →
      lookup tx'
          (((e.handle { client := filer, event := Event.Chargeback tx }).1.applyAll
            ts).funds_transactions) = none →
      ((((e.handle { client := filer, event := Event.Chargeback tx }).1.applyAll
            ts).account_info info.client).locked = true) ∧
      ((((e.handle { client := filer, event := Event.Chargeback tx }).1.applyAll
            ts).handle { client := info.client, event := Event.Deposit tx' amount }).2
        = some (ErrorType.LockedAccount info.client)) ∧
      ((((e.handle { client := filer, event := Event.Chargeback tx }).1.applyAll
            ts).handle { client := info.client, event := Event.Withdrawal tx' amount }).2
        = some (ErrorType.LockedAccount info.client))) := by
  by_cases hown : info.client ≠ filer ∧ e.global_dispute = false
  · exfalso
    simp [Engine.handle, Engine.handleChargeback, hrec, hown] at hsucc
  have hs := handleChargeback_success e filer tx info hrec hown hst
  set e1 := (e.handle { client := filer, event := Event.Chargeback tx }).1 with he1
  have hst1 : e1.state = upsert info.client
      { available := ((lookup info.client e.state).getD ClientState.default).available,
        held := ((lookup info.client e.state).getD ClientState.default).held - info.amount,
        locked := true } e.state := by
    rw [he1]
    simp [Engine.handle, hs]
  have hft1 : e1.funds_transactions
      = upsert tx { info with status := Status.Reversed } e.funds_transactions := by
    rw [he1]
    simp [Engine.handle, hs]
  rcases account_info_fields e1 info.client with ⟨ha1, hh1, hl1, _⟩
  rcases account_info_fields e info.client with ⟨ha0, hh0, _, _⟩
  have hlocked1 : (e1.account_info info.client).locked = true := by
    rw [hl1, hst1, lookup_upsert_self]
    rfl
  refine ⟨?_, ?_, ?_, hlocked1, ?_⟩
  · rw [hft1]
    exact lookup_upsert_self _ _ _
  · rw [hh1, hh0, hst1, lookup_upsert_self]
    rfl
  · rw [ha1, ha0, hst1, lookup_upsert_self]
    rfl
  · intro ts tx' amount hamt hfresh
    have hlk2 := applyAll_locked_mono ts e1 info.client hlocked1
    exact ⟨hlk2,
      locked_blocks_deposit _ _ _ _ hlk2 hamt hfresh,
      locked_blocks_withdrawal _ _ _ _ hlk2 hamt hfresh⟩

/-- C10: when `global_dispute` is on and a dispute-lifecycle event is filed by a
client other than the record's owner, every client other than the owner — in
particular the filing client — has an unchanged account snapshot. -/
theorem C10_cross_client_frame (e : Engine) (t : Transaction) (tx : TransactionId)
    (info : TransactionInfo)
    (hgd : e.global_dispute = true)
    (hev : t.event = Event.Dispute tx ∨ t.event = Event.Resolve tx ∨
      t.event = Event.Chargeback tx)
    (hrec : lookup tx e.funds_transactions = some info)
    (hne : info.client ≠ t.client) :
    (∀ c, c ≠ info.client → (e.handle t).1.account_info c = e.account_info c) ∧
    (e.handle t).1.account_info t.client = e.account_info t.client := by
  obtain ⟨cl, ev⟩ := t
  simp only at hev hne ⊢
  have hown : ¬ (info.client ≠ cl ∧ e.global_dispute = false) := by simp [hgd]
  have main : ∀ c, c ≠ info.client → (Engine.handle e ⟨cl, ev⟩).1.account_info c
      = e.account_info c := by
    intro c hc
    rcases hev with h | h | h <;> subst h
    · by_cases hst : info.status = Status.None
      · have hs := handleDispute_success e cl tx info hrec hown hst
        simp [Engine.handle, hs, Engine.account_info, lookup_upsert_ne hc]
      · rcases handleDispute_cases e cl tx with h1 | h1
        · simp [Engine.handle, h1]
        · exfalso
          simp [Engine.handleDispute, hrec, hown, hst] at h1
    · by_cases hst : info.status = Status.UnderDispute
      · have hs := handleResolve_success e cl tx info hrec hown hst
        simp [Engine.handle, hs, Engine.account_info, lookup_upsert_ne hc]
      · rcases handleResolve_cases e cl tx with h1 | h1
        · simp [Engine.handle, h1]
        · exfalso
          simp [Engine.handleResolve, hrec, hown, hst] at h1
    · by_cases hst : info.status = Status.UnderDispute
      · have hs := handleChargeback_success e cl tx info hrec hown hst
        simp [Engine.handle, hs, Engine.account_info, lookup_upsert_ne hc]
      · rcases handleChargeback_cases e cl tx with h1 | h1
        · simp [Engine.handle, h1]
        · exfalso
          simp [Engine.handleChargeback, hrec, hown, hst] at h1
  exact ⟨main, main cl (fun hcc => hne hcc.symm)⟩

/-- C4: starting from a record with status `None`, a successful Dispute
immediately followed by a successful Resolve of the same transaction restores
the owner's `(available, held)` pair and the stored record (hence its status),
and the transaction is eligible for dispute again (the same dispute succeeds). -/
theorem C4_dispute_resolve_roundtrip (e : Engine) (filer : ClientId)
    (tx : TransactionId) (info : TransactionInfo)
    (hrec : lookup tx e.funds_transactions = some info)
    (hst : info.status = Status.None)
    (h1 : (e.handle { client := filer, event := Event.Dispute tx }).2 = none)
    (h2 : (((e.handle { client := filer, event := Event.Dispute tx }).1).handle
        { client := filer, event := Event.Resolve tx }).2 = none) :
    (((((e.handle { client := filer, event := Event.Dispute tx }).1).handle
          { client := filer, event := Event.Resolve tx }).1.account_info
        info.client).available = (e.account_info info.client).available) ∧
    (((((e.handle { client := filer, event := Event.Dispute tx }).1).handle
          { client := filer, event := Event.Resolve tx }).1.account_info
        info.client).held = (e.account_info info.client).held) ∧
    (lookup tx ((((e.handle { client := filer, event := Event.Dispute tx }).1).handle
          { client := filer, event := Event.Resolve tx }).1).funds_transactions
      = some info) ∧
    ((((((e.handle { client := filer, event := Event.Dispute tx }).1).handle
          { client := filer, event := Event.Resolve tx }).1).handle
        { client := filer, event := Event.Dispute tx }).2 = none) := by
  by_cases hown : info.client ≠ filer ∧ e.global_dispute = false
  · exfalso
    simp [Engine.handle, Engine.handleDispute, hrec, hown] at h1
  have hs1 := handleDispute_success e filer tx info hrec hown hst
  set acc := (lookup info.client e.state).getD ClientState.default with hacc
  set e1 := (e.handle { client := filer, event := Event.Dispute tx }).1 with he1
  have hst1 : e1.state = upsert info.client
      { available := acc.available - info.amount, held := acc.held + info.amount,
        locked := acc.locked } e.state := by
    rw [he1]
    simp [Engine.handle, hs1]
  have hft1 : e1.funds_transactions
      = upsert tx { info with status := Status.UnderDispute } e.funds_transactions := by
    rw [he1]
    simp [Engine.handle, hs1]
  have hgd1 : e1.global_dispute = e.global_dispute := by
    rw [he1]
    simp [Engine.handle, hs1]
  have hrec1 : lookup tx e1.funds_transactions
      = some { info with status := Status.UnderDispute } := by
    rw [hft1]
    exact lookup_upsert_self _ _ _
  have hown1 : ¬ (({ info with status := Status.UnderDispute } : TransactionInfo).client ≠ filer
      ∧ e1.global_dispute = false) := by
    rw [hgd1]
    simpa using hown
  have hs2 := handleResolve_success e1 filer tx { info with status := Status.UnderDispute }
    hrec1 hown1 rfl
  have hlk1 : lookup info.client e1.state
      = some { available := acc.available - info.amount,
               held := acc.held + info.amount,
               locked := acc.locked } := by
    rw [hst1]
    exact lookup_upsert_self _ _ _
  have heta : ({ client := info.client, amount := info.amount, status := Status.None }
      : TransactionInfo) = info := by
    cases info
    simp_all
  set e2 := (e1.handle { client := filer, event := Event.Resolve tx }).1 with he2
  have hft2 : e2.funds_transactions = e.funds_transactions := by
    rw [he2]
    simp only [Engine.handle, hs2, heta]
    rw [hft1, upsert_upsert]
    exact upsert_lookup_self hrec
  have hstate2 : e2.state = upsert info.client
      { available := acc.available - info.amount + info.amount,
        held := acc.held + info.amount - info.amount,
        locked := acc.locked } e.state := by
    rw [he2]
    simp only [Engine.handle, hs2, hlk1, Option.getD_some]
    rw [hst1, upsert_upsert]
  have hgd2 : e2.global_dispute = e.global_dispute := by
    rw [he2]
    simp only [Engine.handle, hs2]
    exact hgd1
  rcases account_info_fields e2 info.client with ⟨ha2, hh2, _, _⟩
  rcases account_info_fields e info.client with ⟨ha0, hh0, _, _⟩
  refine ⟨?_, ?_, ?_, ?_⟩
  · rw [ha2, ha0, hstate2, lookup_upsert_self, ← hacc]
    simp
  · rw [hh2, hh0, hstate2, lookup_upsert_self, ← hacc]
    simp
  · rw [hft2]
    exact hrec
  · have hrec2 : lookup tx e2.funds_transactions = some info := by
      rw [hft2]
      exact hrec
    have hown2 : ¬ (info.client ≠ filer ∧ e2.global_dispute = false) := by
      rw [hgd2]
      exact hown
    have hs3 := handleDispute_success e2 filer tx info hrec2 hown2 hst
    simp [Engine.handle, hs3]

/-- C1: the all-or-nothing claim fails on the code. A Withdrawal on a fresh
engine is rejected with `InsufficientFunds`, yet the call has already inserted
a transaction record for its id (consuming the id forever) and created the
client's default account entry: the engine after the rejected call differs
from the engine before it. -/
theorem C1_rejection_mutates :
    ((Engine.new.handle { client := 1, event := Event.Withdrawal 1 5 }).2
      = some (ErrorType.InsufficientFunds 1 1)) ∧
    ((Engine.new.handle { client := 1, event := Event.Withdrawal 1 5 }).1
      ≠ Engine.new) ∧
    (lookup 1 (Engine.new.handle
        { client := 1, event := Event.Withdrawal 1 5 }).1.funds_transactions
      = some (TransactionInfo.new 1 (-5))) ∧
    (lookup 1 (Engine.new.handle
        { client := 1, event := Event.Withdrawal 1 5 }).1.state
      = some ClientState.default) := by
  decide

/-- C2: the claim that a reused transaction id causes no mutation fails on the
code. After client 1's deposit created the record for tx 1, a second Deposit
with the same tx by client 2 is rejected with `ReusedTransactionId`, but the
`insert` has already landed: the stored record's owner, signed amount, and
status are replaced by those of the rejected event. -/
theorem C2_reuse_overwrites_record :
    (lookup 1 egDeposit.funds_transactions = some (TransactionInfo.new 1 10)) ∧
    ((egDeposit.handle { client := 2, event := Event.Deposit 1 5 }).2
      = some (ErrorType.ReusedTransactionId 1)) ∧
    (lookup 1 (egDeposit.handle
        { client := 2, event := Event.Deposit 1 5 }).1.funds_transactions
      = some (TransactionInfo.new 2 5)) := by
  decide

/-- C6: `Reversed` is not terminal in the code. After deposit, dispute, and
chargeback the record for tx 1 is `Reversed`; a rejected duplicate Deposit
with tx 1 then overwrites the record with a fresh status-`None` record owned by
the duplicate's client, and a subsequent Dispute on the same transaction id
succeeds. -/
theorem C6_reversed_not_terminal :
    ((lookup 1 (Engine.new.applyAll
        [ { client := 1, event := Event.Deposit 1 10 },
          { client := 1, event := Event.Dispute 1 },
          { client := 1, event := Event.Chargeback 1 } ]).funds_transactions).map
        TransactionInfo.status = some Status.Reversed) ∧
    (((Engine.new.applyAll
        [ { client := 1, event := Event.Deposit 1 10 },
          { client := 1, event := Event.Dispute 1 },
          { client := 1, event := Event.Chargeback 1 } ]).handle
        { client := 2, event := Event.Deposit 1 5 }).2
      = some (ErrorType.ReusedTransactionId 1)) ∧
    (lookup 1 ((Engine.new.applyAll
        [ { client := 1, event := Event.Deposit 1 10 },
          { client := 1, event := Event.Dispute 1 },
          { client := 1, event := Event.Chargeback 1 } ]).handle
        { client := 2, event := Event.Deposit 1 5 }).1.funds_transactions
      = some (TransactionInfo.new 2 5)) ∧
    ((((Engine.new.applyAll
        [ { client := 1, event := Event.Deposit 1 10 },
          { client := 1, event := Event.Dispute 1 },
          { client := 1, event := Event.Chargeback 1 } ]).handle
        { client := 2, event := Event.Deposit 1 5 }).1.handle
        { client := 2, event := Event.Dispute 1 }).2 = none) := by
  decide

/-! ### Witnesses -/

theorem C3_witness :
    ((egDeposit.handle { client := 1, event := Event.Dispute 1 }).1.account_info
      1).total = (egDeposit.account_info 1).total :=
  (C3_total_conservation egDeposit { client := 1, event := Event.Dispute 1 } 1).1
    (by decide)

theorem C4_witness :
    ((((egDeposit.handle { client := 1, event := Event.Dispute 1 }).1.handle
        { client := 1, event := Event.Resolve 1 }).1).handle
        { client := 1, event := Event.Dispute 1 }).2 = none :=
  (C4_dispute_resolve_roundtrip egDeposit 1 1 (TransactionInfo.new 1 10)
    (by decide) (by decide) (by decide) (by decide)).2.2.2

theorem C5_witness :
    ((((egDisputed.handle { client := 1, event := Event.Chargeback 1 }).1.applyAll
        []).handle { client := 1, event := Event.Deposit 2 3 }).2
      = some (ErrorType.LockedAccount 1)) :=
  ((C5_chargeback_locks egDisputed 1 1
        { client := 1, amount := 10, status := Status.UnderDispute }
      (by decide) (by decide) (by decide)).2.2.2.2 [] 2 3 (by decide) (by decide)).2.1

theorem C7_witness :
    egDeposit.handle { client := 2, event := Event.Dispute 1 }
      = (egDeposit, some (ErrorType.TransactionDoesNotMatchClient 1 2)) :=
  (C7_ownership_check egDeposit { client := 2, event := Event.Dispute 1 } 1
      (TransactionInfo.new 1 10) (Or.inl rfl) (by decide) (by decide)).1 (by decide)

theorem C8_witness :
    (egLocked2.handle { client := 1, event := Event.Dispute 2 }).2 = none :=
  (C8_locked_account_dispute egLocked2 2 (TransactionInfo.new 1 100)
    (by decide) (by decide) (by decide)).1

theorem C9_witness :
    (((Engine.new.applyAll
        [{ client := 1, event := Event.Deposit 1 10 }]).all_accounts.map
      AccountInfo.client).Nodup) ∧
    ((1 : ClientId) ∈ ([{ client := 1, event := Event.Deposit 1 10 }] :
        List Transaction).map Transaction.client) :=
  ⟨(C9_snapshot_all [{ client := 1, event := Event.Deposit 1 10 }]).1,
   (C9_snapshot_all [{ client := 1, event := Event.Deposit 1 10 }]).2 1 (by decide)⟩

theorem C10_witness :
    (egGlobal.handle { client := 2, event := Event.Dispute 1 }).1.account_info 2
      = egGlobal.account_info 2 :=
  (C10_cross_client_frame egGlobal { client := 2, event := Event.Dispute 1 } 1
    (TransactionInfo.new 1 10) (by decide) (Or.inl rfl) (by decide) (by decide)).2

end Ledger
